import Mathlib

/-!
Verification of the advice rule engine of the BuildLucky journaling app
(`localAdviceService`: CSV parsing, criteria evaluation, record selection and
advice composition).

Modelling conventions:
* JavaScript strings are modelled as `List Char`.
* JavaScript numbers are modelled exactly on the values arising here: the
  summary counters as `Nat`, and `Number()` coercion of criteria operands by
  the full `StrNumericLiteral` grammar (sign, decimal with fraction and
  exponent, hex/octal/binary, `Infinity`) with exact rational values plus
  signed infinities; only the float64 rounding of astronomically large
  magnitudes is outside the model.
* The process-wide advice cache and the asynchronous fetch are modelled by
  passing the outcome of the ensure-loaded step (`Option (List AdviceItem)`,
  `none` for a failed load, which in the source rethrows into the `catch`)
  as an explicit argument.
* Calls to `Math.random` are modelled by an environment `rnd : Nat → Nat`
  handing an arbitrary natural number to each call site; the picked index is
  reduced into range exactly as `Math.floor(Math.random() * arr.length)`
  always is.
-/

namespace BuildLucky

/-- Shorthand: the character list underlying a string literal. -/
def strL (s : String) : List Char := s.data

/-- `interface LogSummaryForAdvice`: the eight non-negative counters. -/
structure LogSummaryForAdvice where
  goodThoughts : Nat
  badThoughts : Nat
  goodActions : Nat
  badActions : Nat
  goodWordsCount : Nat
  badWordsCount : Nat
  happyEvents : Nat
  toughEvents : Nat
deriving DecidableEq

/-- `interface AdviceItem`: one advice record. -/
structure AdviceItem where
  type : List Char
  subtype : List Char
  text : List Char
  criteria : List Char
deriving DecidableEq

/-- The JavaScript whitespace class used by `String.prototype.trim`
(ECMAScript WhiteSpace and LineTerminator code points). -/
def jsWs (c : Char) : Bool :=
  c.toNat = 9 ∨ c.toNat = 10 ∨ c.toNat = 11 ∨ c.toNat = 12 ∨ c.toNat = 13 ∨
  c.toNat = 32 ∨ c.toNat = 160 ∨ c.toNat = 0x1680 ∨
  (0x2000 ≤ c.toNat ∧ c.toNat ≤ 0x200A) ∨ c.toNat = 0x2028 ∨
  c.toNat = 0x2029 ∨ c.toNat = 0x202F ∨ c.toNat = 0x205F ∨
  c.toNat = 0x3000 ∨ c.toNat = 0xFEFF

/-- Drop leading JavaScript whitespace. -/
def trimLeft : List Char → List Char
  | [] => []
  | c :: cs => if jsWs c then trimLeft cs else c :: cs

/-- Drop trailing JavaScript whitespace. -/
def trimRight : List Char → List Char
  | [] => []
  | c :: cs =>
    match trimRight cs with
    | [] => if jsWs c then [] else [c]
    | t => c :: t

/-- `String.prototype.trim`. -/
def trimJs (l : List Char) : List Char := trimRight (trimLeft l)

/-- `String.prototype.split` with a single-character separator: splits at
every occurrence of `sep`, keeping empty pieces (`"".split(' ')` is `[""]`,
`"a ".split(' ')` is `["a", ""]`). -/
def splitChar (sep : Char) : List Char → List (List Char)
  | [] => [[]]
  | c :: cs =>
    if c = sep then [] :: splitChar sep cs
    else
      match splitChar sep cs with
      | [] => [[c]]
      | t :: ts => (c :: t) :: ts

/-- Decimal digit test (`'0'` to `'9'`). -/
def isDigitC (c : Char) : Bool := 48 ≤ c.toNat ∧ c.toNat ≤ 57

/-- Value of a non-empty all-digit run, accumulator style; `none` as soon as a
non-digit appears. -/
def digitsValAux : Nat → List Char → Option Nat
  | acc, [] => some acc
  | acc, c :: cs =>
    if isDigitC c then digitsValAux (acc * 10 + (c.toNat - 48)) cs else none

/-- Value of a non-empty all-digit character run (`none` on the empty list or
on any non-digit character). -/
def digitsVal? : List Char → Option Nat
  | [] => none
  | l => digitsValAux 0 l

/-- A JavaScript number produced by `Number()` on a criteria operand: an
exact rational value, or a signed infinity (`NaN` is `none` at the `Option`
layer).  Values are exact rationals: the float64 rounding of astronomically
large magnitudes (far beyond the spec's small-counter domain) is not
modelled. -/
inductive JsNum where
  | finite (q : ℚ)
  | posInf
  | negInf
deriving DecidableEq

/-- Total decimal-digit fold (callers guarantee all-digit input). -/
def digitsValT : Nat → List Char → Nat
  | acc, [] => acc
  | acc, c :: cs => digitsValT (acc * 10 + (c.toNat - 48)) cs

/-- Hexadecimal digit value. -/
def hexVal? (c : Char) : Option Nat :=
  if 48 ≤ c.toNat ∧ c.toNat ≤ 57 then some (c.toNat - 48)
  else if 97 ≤ c.toNat ∧ c.toNat ≤ 102 then some (c.toNat - 87)
  else if 65 ≤ c.toNat ∧ c.toNat ≤ 70 then some (c.toNat - 55)
  else none

/-- Digit fold in a radix up to 16; `none` on a digit outside the radix. -/
def radixValAux (base : Nat) : Nat → List Char → Option Nat
  | acc, [] => some acc
  | acc, c :: cs =>
    match hexVal? c with
    | some d => if d < base then radixValAux base (acc * base + d) cs else none
    | none => none

/-- A non-empty digit run in the given radix. -/
def parseRadix? (base : Nat) (l : List Char) : Option ℚ :=
  match l with
  | [] => none
  | _ => (radixValAux base 0 l).map (fun n => (n : ℚ))

/-- The `0x`/`0o`/`0b` integer forms of the `Number()` grammar (JavaScript
admits no sign on these). -/
def parseNonDecimal? (l : List Char) : Option ℚ :=
  match l with
  | d :: c :: rest =>
    if d = '0' ∧ (c = 'x' ∨ c = 'X') then parseRadix? 16 rest
    else if d = '0' ∧ (c = 'o' ∨ c = 'O') then parseRadix? 8 rest
    else if d = '0' ∧ (c = 'b' ∨ c = 'B') then parseRadix? 2 rest
    else none
  | _ => none

/-- A non-empty digit run as an exponent value. -/
def expDigits? (ds : List Char) : Option Int :=
  if ds ≠ [] ∧ ds.all isDigitC then some ((digitsValT 0 ds : Nat) : Int)
  else none

/-- The optional exponent tail of a decimal literal: nothing, or `e`/`E`
followed by an optionally signed non-empty digit run; any other trailing
text fails the parse. -/
def parseExp? (l : List Char) : Option Int :=
  match l with
  | [] => some 0
  | c :: rest =>
    if c = 'e' ∨ c = 'E' then
      match rest with
      | [] => none
      | s :: ds0 =>
        if s = '+' then expDigits? ds0
        else if s = '-' then (expDigits? ds0).map (fun n => -n)
        else expDigits? (s :: ds0)
    else none

/-- `10 ^ e` for an integer exponent. -/
def pow10Z (e : Int) : ℚ :=
  match e with
  | Int.ofNat n => (10 : ℚ) ^ n
  | Int.negSucc n => 1 / (10 : ℚ) ^ (n + 1)

/-- Exact value of the digit runs `ip.fp` (integer and fraction parts). -/
def decPartsVal (ip fp : List Char) : ℚ :=
  (digitsValT 0 ip : ℚ) + (digitsValT 0 fp : ℚ) / (10 : ℚ) ^ fp.length

/-- An unsigned decimal literal of the `Number()` grammar: an integer digit
run with optional `.` fraction and optional exponent; at least one digit must
be present in the integer or fraction part. -/
def parseDecimalLit? (l : List Char) : Option ℚ :=
  let ip := l.takeWhile isDigitC
  let r1 := l.drop ip.length
  match r1 with
  | '.' :: r2 =>
    let fp := r2.takeWhile isDigitC
    let r3 := r2.drop fp.length
    if ip = [] ∧ fp = [] then none
    else (parseExp? r3).map (fun e => decPartsVal ip fp * pow10Z e)
  | _ =>
    if ip = [] then none
    else (parseExp? r1).map (fun e => decPartsVal ip [] * pow10Z e)

/-- The signed tail of `Number()` after an optional sign is stripped: the
`Infinity` literal or an unsigned decimal literal. -/
def jsSigned? (neg : Bool) (body : List Char) : Option JsNum :=
  if body = strL "Infinity" then
    some (if neg then JsNum.negInf else JsNum.posInf)
  else (parseDecimalLit? body).map (fun q => JsNum.finite (if neg then -q else q))

/-- `Number(s)` for an already-trimmed string (the evaluator trims every part
before coercing): the empty string coerces to `0`; otherwise the
`StrNumericLiteral` grammar — an unsigned hex/octal/binary integer, or an
optional sign followed by `Infinity` or a decimal literal with optional
fraction and exponent; anything else is `NaN` (`none`). -/
def jsNumber? (l : List Char) : Option JsNum :=
  if l = [] then some (JsNum.finite 0)
  else
    match parseNonDecimal? l with
    | some q => some (JsNum.finite q)
    | none =>
      match l with
      | [] => none
      | c :: r =>
        if c = '+' then jsSigned? false r
        else if c = '-' then jsSigned? true r
        else jsSigned? false (c :: r)

/-- `leftValue > rightValue` for a summary value and a `Number()` result. -/
def jsGt (l : ℚ) : JsNum → Bool
  | JsNum.finite q => decide (l > q)
  | JsNum.posInf => false
  | JsNum.negInf => true

/-- `leftValue < rightValue` for a summary value and a `Number()` result. -/
def jsLt (l : ℚ) : JsNum → Bool
  | JsNum.finite q => decide (l < q)
  | JsNum.posInf => true
  | JsNum.negInf => false

/-- `leftValue >= rightValue` for a summary value and a `Number()` result. -/
def jsGe (l : ℚ) : JsNum → Bool
  | JsNum.finite q => decide (l ≥ q)
  | JsNum.posInf => false
  | JsNum.negInf => true

/-- `leftValue <= rightValue` for a summary value and a `Number()` result. -/
def jsLe (l : ℚ) : JsNum → Bool
  | JsNum.finite q => decide (l ≤ q)
  | JsNum.posInf => true
  | JsNum.negInf => false

/-- `leftValue == rightValue` (loose equality on two numbers is numeric
equality; a finite number never equals an infinity). -/
def jsEq (l : ℚ) : JsNum → Bool
  | JsNum.finite q => decide (l = q)
  | JsNum.posInf => false
  | JsNum.negInf => false

/-- `key in summary` followed by `summary[key]`, with the summary treated as
the closed record declared by `LogSummaryForAdvice` (the TypeScript interface
has exactly these eight fields; JavaScript prototype-chain lookup is not
modelled). -/
def getField? (key : List Char) (s : LogSummaryForAdvice) : Option Nat :=
  if key = strL "goodThoughts" then some s.goodThoughts
  else if key = strL "badThoughts" then some s.badThoughts
  else if key = strL "goodActions" then some s.goodActions
  else if key = strL "badActions" then some s.badActions
  else if key = strL "goodWordsCount" then some s.goodWordsCount
  else if key = strL "badWordsCount" then some s.badWordsCount
  else if key = strL "happyEvents" then some s.happyEvents
  else if key = strL "toughEvents" then some s.toughEvents
  else none

/-- The always-true sentinel criteria token. -/
def ALWAYS_MATCH_STR : List Char := strL "ALWAYS_MATCH"

/-- `evaluateCriteria(criteria, summary)`: the three-token comparison
evaluator.  Mirrors the source: sentinel / empty check, `split(' ')` with
per-part `trim()`, exactly-three-part check, field lookup of the left
operand, numeric-else-field coercion of the right operand, then the operator
switch. -/
def evaluateCriteria (criteria : List Char) (summary : LogSummaryForAdvice) : Bool :=
  if criteria = ALWAYS_MATCH_STR ∨ criteria = [] then true
  else
    match (splitChar ' ' criteria).map trimJs with
    | [leftOperandKey, operator, rightOperandRaw] =>
      match getField? leftOperandKey summary with
      | none => false
      | some leftNat =>
        let leftValue : ℚ := (leftNat : ℚ)
        match
          (match jsNumber? rightOperandRaw with
           | some n => some n
           | none => (getField? rightOperandRaw summary).map
               (fun n => JsNum.finite (n : ℚ))) with
        | none => false
        | some rightValue =>
          if operator = strL ">" then jsGt leftValue rightValue
          else if operator = strL "<" then jsLt leftValue rightValue
          else if operator = strL ">=" then jsGe leftValue rightValue
          else if operator = strL "<=" then jsLe leftValue rightValue
          else if operator = strL "==" then jsEq leftValue rightValue
          else false
    | _ => false

/-- `pickRandom(arr)`: `arr[Math.floor(Math.random() * arr.length)]`.  The
random draw is modelled by an arbitrary natural number `r` reduced into range,
exactly the range `Math.floor(Math.random() * arr.length)` always lands in. -/
def pickRandom {α : Type} (arr : List α) (r : Nat) : Option α :=
  arr[r % arr.length]?

/-- The `suitable` pool computed inside `findAndPick`: filter by exact `type`,
then by exact `subtype` when one is given (`if (subtype)` is a truthiness
test, so both `null` — `none` — and the empty string skip the subtype
filter), then by the criteria evaluating true against the summary. -/
def suitablePool (recs : List AdviceItem) (s : LogSummaryForAdvice)
    (ty : List Char) (st : Option (List Char)) : List AdviceItem :=
  let pool : List AdviceItem := recs.filter (fun item => item.type == ty)
  let pool2 : List AdviceItem :=
    match st with
    | some sub =>
      if sub = [] then pool else pool.filter (fun item => item.subtype == sub)
    | none => pool
  pool2.filter (fun item => evaluateCriteria item.criteria s)

/-- `findAndPick(type, subtype?)`: pick a random member of the suitable pool,
`null` (`none`) when the pool is empty.  The cached record set and the current
summary, closed over in the source, are explicit arguments here. -/
def findAndPick (recs : List AdviceItem) (s : LogSummaryForAdvice)
    (ty : List Char) (st : Option (List Char)) (r : Nat) : Option AdviceItem :=
  let suitable := suitablePool recs s ty st
  if suitable.length > 0 then pickRandom suitable r else none

/-- `List.isPrefixOf`-based model of one pass of `String.prototype.replace`
with a global literal pattern: scan left to right, replace each
non-overlapping occurrence, never rescanning replaced text.  `fuel` bounds the
recursion and is instantiated with the scanned list's length, which the scan
never exhausts for a non-empty pattern. -/
def replaceAllAux (pat sub : List Char) : Nat → List Char → List Char
  | _, [] => []
  | 0, rest => rest
  | fuel + 1, c :: cs =>
    if pat ≠ [] ∧ pat.isPrefixOf (c :: cs) then
      sub ++ replaceAllAux pat sub fuel (List.drop pat.length (c :: cs))
    else c :: replaceAllAux pat sub fuel cs

/-- `s.replace(/pat/g, sub)` for a literal non-empty pattern `pat`. -/
def replaceAll (pat sub l : List Char) : List Char :=
  replaceAllAux pat sub l.length l

/-- `s.replace(pat, sub)` with a plain string pattern: replaces only the first
occurrence. -/
def replaceFirst (pat sub : List Char) : List Char → List Char
  | [] => []
  | c :: cs =>
    if pat ≠ [] ∧ pat.isPrefixOf (c :: cs) then
      sub ++ List.drop pat.length (c :: cs)
    else c :: replaceFirst pat sub cs

/-- Decimal digits of a positive number, most significant first (`fuel`
bounds the recursion and is instantiated above the number's digit count). -/
def natDigitsAux : Nat → Nat → List Char
  | 0, _ => []
  | _ + 1, 0 => []
  | fuel + 1, n + 1 =>
    natDigitsAux fuel ((n + 1) / 10) ++ [Char.ofNat (48 + (n + 1) % 10)]

/-- `String(n)` for a non-negative integer. -/
def natToChars (n : Nat) : List Char :=
  if n = 0 then strL "0" else natDigitsAux (n + 1) n

/-- The fixed data-unavailable message. -/
def dataUnavailableMsg : List Char :=
  strL "조언 데이터를 불러오지 못했습니다. 인터넷 연결을 확인하거나 관리자에게 문의하세요."

/-- The fixed no-activity message. -/
def noActivityMsg : List Char :=
  strL "기록이 없습니다. 자신의 기운을 기록하고 맞춤 조언을 받아보세요."

/-- The fixed generation-failed message of the `catch` branch. -/
def generationFailedMsg : List Char :=
  strL "조언을 생성하는 중 오류가 발생했습니다. 잠시 후 다시 시도해주세요."

/-- The fixed encouragement sentence of the strength section's last
fallback. -/
def encouragementMsg : List Char :=
  strL "꾸준히 기록하는 당신의 노력을 응원합니다!"

/-- `totalActions`: `Object.values(logSummary).reduce((sum, val) => sum + (val || 0), 0)`. -/
def sumFields (s : LogSummaryForAdvice) : Nat :=
  s.goodThoughts + s.badThoughts + s.goodActions + s.badActions +
    s.goodWordsCount + s.badWordsCount + s.happyEvents + s.toughEvents

/-- `periodType`: `'weekly'` when the label contains the week marker `'주'`,
else `'monthly'` on the month marker `'월'`, else `'daily'`
(`periodLabel.includes` with a one-character pattern is character
membership). -/
def periodTypeOf (periodLabel : List Char) : List Char :=
  if periodLabel.contains '주' then strL "weekly"
  else if periodLabel.contains '월' then strL "monthly"
  else strL "daily"

/-- The intro section: `findAndPick('intro', periodType) || findAndPick('intro', 'default')`,
the winner's text with its first `{periodLabel}` occurrence substituted, plus
a blank line; nothing when both miss. -/
def introSection (recs : List AdviceItem) (s : LogSummaryForAdvice)
    (periodLabel : List Char) (rnd : Nat → Nat) : List Char :=
  match
    (match findAndPick recs s (strL "intro") (some (periodTypeOf periodLabel)) (rnd 0) with
     | some it => some it
     | none => findAndPick recs s (strL "intro") (some (strL "default")) (rnd 1)) with
  | some intro =>
    replaceFirst (strL "\x7bperiodLabel\x7d") periodLabel intro.text ++ strL "\n\n"
  | none => []

/-- The fixed heading printed before the strength item. -/
def strengthHeader : List Char := strL "✨ **당신이 정말 잘하고 있는 것들:**\n"

/-- The strength contribution after its heading: `findAndPick('strength')`,
else `findAndPick('strength', 'balance')`, both rendered as `"1. " + text`;
else the fixed encouragement sentence (rendered without a number prefix). -/
def strengthItem (recs : List AdviceItem) (s : LogSummaryForAdvice)
    (rnd : Nat → Nat) : List Char :=
  match findAndPick recs s (strL "strength") none (rnd 2) with
  | some strength => strL "1. " ++ strength.text ++ strL "\n\n"
  | none =>
    match findAndPick recs s (strL "strength") (some (strL "balance")) (rnd 3) with
    | some fallbackStrength => strL "1. " ++ fallbackStrength.text ++ strL "\n\n"
    | none => encouragementMsg ++ strL "\n\n"

/-- The growth record choice, shared by the growth section and the tips
section (`rnd 4` models the single `findAndPick('growth')` call both read). -/
def growthPick (recs : List AdviceItem) (s : LogSummaryForAdvice)
    (rnd : Nat → Nat) : Option AdviceItem :=
  findAndPick recs s (strL "growth") none (rnd 4)

/-- The growth section: heading plus text when a growth record matched,
nothing otherwise. -/
def growthSection (recs : List AdviceItem) (s : LogSummaryForAdvice)
    (rnd : Nat → Nat) : List Char :=
  match growthPick recs s rnd with
  | some growth => strL "☁️ **우리 함께 채워나갈 부분:**\n" ++ growth.text ++ strL "\n\n"
  | none => []

/-- `growthSubtype`: the matched growth record's subtype; the empty list
models both `null` (no growth record) and an empty subtype, which the source
treats identically (both falsy, only used in a truthiness test and a lookup
guarded by it). -/
def growthSubtypeOf (recs : List AdviceItem) (s : LogSummaryForAdvice)
    (rnd : Nat → Nat) : List Char :=
  match growthPick recs s rnd with
  | some growth => growth.subtype
  | none => []

/-- `tipsList`: the growth-subtype tip if any, then the `maintainStrengths`
tip if any; when still empty, one random record from all `tip`-typed records
whose subtype is not `maintainStrengths` (criteria not reapplied), if any
exist. -/
def tipsList (recs : List AdviceItem) (s : LogSummaryForAdvice)
    (rnd : Nat → Nat) : List (List Char) :=
  let gs := growthSubtypeOf recs s rnd
  let l1 : List (List Char) :=
    if gs ≠ [] then
      match findAndPick recs s (strL "tip") (some gs) (rnd 5) with
      | some growthTip => [growthTip.text]
      | none => []
    else []
  let l2 : List (List Char) :=
    match findAndPick recs s (strL "tip") (some (strL "maintainStrengths")) (rnd 6) with
    | some maintainTip => l1 ++ [maintainTip.text]
    | none => l1
  if l2 = [] then
    let fallbackTip := recs.filter
      (fun a => a.type == strL "tip" && a.subtype != strL "maintainStrengths")
    if fallbackTip.length > 0 then
      match pickRandom fallbackTip (rnd 7) with
      | some t => [t.text]
      | none => []
    else []
  else l2

/-- `tipsList.forEach((tip, index) => advice += \x7bindex + 1\x7d. \x7btip\x7d\n)`:
a 1-based numbered rendering. -/
def renderTips : Nat → List (List Char) → List Char
  | _, [] => []
  | i, t :: ts =>
    natToChars (i + 1) ++ strL ". " ++ t ++ strL "\n" ++ renderTips (i + 1) ts

/-- The tips section: heading, numbered tips, and the trailing blank line. -/
def tipsSection (recs : List AdviceItem) (s : LogSummaryForAdvice)
    (rnd : Nat → Nat) : List Char :=
  strL "🌱 **당신을 위한 따뜻하고 실천 가능한 조언:**\n" ++
    renderTips 0 (tipsList recs s rnd) ++ strL "\n"

/-- The closing section: the matched closing record's text, else nothing. -/
def closingSection (recs : List AdviceItem) (s : LogSummaryForAdvice)
    (rnd : Nat → Nat) : List Char :=
  match findAndPick recs s (strL "closing") none (rnd 8) with
  | some closing => closing.text
  | none => []

/-- The section pipeline: the sequential `advice += ...` accumulation of the
source, written as one concatenation. -/
def composeAdvice (recs : List AdviceItem) (s : LogSummaryForAdvice)
    (periodLabel : List Char) (rnd : Nat → Nat) : List Char :=
  introSection recs s periodLabel rnd ++
    (strengthHeader ++ strengthItem recs s rnd) ++
    growthSection recs s rnd ++
    tipsSection recs s rnd ++
    closingSection recs s rnd

/-- The final chained global replacement of the eight summary placeholders,
in source order (the `goodWordsCount` replacement runs first, innermost). -/
def replaceSummaryPlaceholders (s : LogSummaryForAdvice) (advice : List Char) : List Char :=
  replaceAll (strL "\x7btoughEvents\x7d") (natToChars s.toughEvents)
    (replaceAll (strL "\x7bhappyEvents\x7d") (natToChars s.happyEvents)
      (replaceAll (strL "\x7bbadThoughts\x7d") (natToChars s.badThoughts)
        (replaceAll (strL "\x7bgoodThoughts\x7d") (natToChars s.goodThoughts)
          (replaceAll (strL "\x7bbadActions\x7d") (natToChars s.badActions)
            (replaceAll (strL "\x7bgoodActions\x7d") (natToChars s.goodActions)
              (replaceAll (strL "\x7bbadWordsCount\x7d") (natToChars s.badWordsCount)
                (replaceAll (strL "\x7bgoodWordsCount\x7d") (natToChars s.goodWordsCount)
                  advice)))))))

/-- `generateDetailedAdvice(logSummary, periodLabel)`.  The outcome of the
ensure-loaded step (`await fetchAndParseAdviceData()` inside the `try`) is
the explicit `allAdvice` argument.  `none` models a failed load: the fetch
sets the cache to `null` and *rethrows*, so the `await` throws inside the
`try` and the `catch` returns `generationFailedMsg` — this makes the
`!allAdvice` disjunct of the subsequent data-unavailable check dead code
(after a non-throwing await the cache is a, possibly empty, truthy array),
so `dataUnavailableMsg` is returned exactly when the dataset is loaded and
`logSummary` is `null`.  Every operation in the composition body itself is
modelled by a total function, so inside the loaded-cache branch the `catch`
never fires and the model returns the `try` body's value. -/
def generateDetailedAdvice (allAdvice : Option (List AdviceItem))
    (logSummary : Option LogSummaryForAdvice) (periodLabel : List Char)
    (rnd : Nat → Nat) : List Char :=
  match allAdvice, logSummary with
  | none, _ => generationFailedMsg
  | some _, none => dataUnavailableMsg
  | some recs, some s =>
    if sumFields s = 0 then noActivityMsg
    else replaceSummaryPlaceholders s (composeAdvice recs s periodLabel rnd)

/-- `.replace(/^"|"$/g, '')`: strip one leading and one trailing double
quote. -/
def stripEdgeQuotes (l : List Char) : List Char :=
  let l1 := if l.head? = some '"' then l.tail else l
  if l1.getLast? = some '"' then l1.dropLast else l1

/-- The character loop of `parseCsvRow`: `cur` is the field being
accumulated, `inQ` the `inQuotes` flag.  A double quote only toggles the flag
(it is never appended), a comma outside quotes ends the field, every other
character is appended; each finished field is pushed trimmed. -/
def parseCsvRowAux (inQ : Bool) (cur : List Char) : List Char → List (List Char)
  | [] => [trimJs cur]
  | c :: cs =>
    if c = '"' then parseCsvRowAux (!inQ) cur cs
    else if c = ',' ∧ inQ = false then trimJs cur :: parseCsvRowAux inQ [] cs
    else parseCsvRowAux inQ (cur ++ [c]) cs

/-- `parseCsvRow(row)`: split into trimmed fields honouring double-quoted
commas, then strip one layer of surrounding quotes per field. -/
def parseCsvRow (row : List Char) : List (List Char) :=
  (parseCsvRowAux false [] row).map stripEdgeQuotes

/-- One iteration of the row loop of `fetchAndParseAdviceData`: skip blank
rows, destructure the first four parsed fields, keep the row only when all
four are non-empty, storing `criteria` trimmed once more. -/
def parseAdviceRow? (row : List Char) : Option AdviceItem :=
  if trimJs row = [] then none
  else
    match parseCsvRow row with
    | type :: subtype :: text :: criteria :: _ =>
      if type ≠ [] ∧ subtype ≠ [] ∧ text ≠ [] ∧ criteria ≠ [] then
        some ⟨type, subtype, text, trimJs criteria⟩
      else none
    | _ => none

/-- `csvText.split(/\r?\n/)`: split at every `\r\n` or `\n`; a lone `\r` is
not a separator. -/
def splitLines : List Char → List (List Char)
  | [] => [[]]
  | '\r' :: '\n' :: cs => [] :: splitLines cs
  | '\n' :: cs => [] :: splitLines cs
  | c :: cs =>
    match splitLines cs with
    | [] => [[c]]
    | t :: ts => (c :: t) :: ts

/-- The pure parsing core of `fetchAndParseAdviceData`: split into lines,
drop the header row, and run the row loop (`continue`-style skipping is
`filterMap`). -/
def parseAdviceData (csvText : List Char) : List AdviceItem :=
  ((splitLines csvText).drop 1).filterMap parseAdviceRow?

/-- Spec-side mirror of the operator switch: the numeric comparison the spec
associates with each of the five supported operators, `false` elsewhere. -/
def specCompare (op : List Char) (l r : Int) : Bool :=
  if op = strL ">" then decide (l > r)
  else if op = strL "<" then decide (l < r)
  else if op = strL ">=" then decide (l ≥ r)
  else if op = strL "<=" then decide (l ≤ r)
  else if op = strL "==" then decide (l = r)
  else false

/-- Spec-side tokenizer following the spec's words "split on whitespace into
tokens": maximal whitespace-separated runs, with no empty tokens. -/
def tokensWsAux (cur : List Char) : List Char → List (List Char)
  | [] => if cur = [] then [] else [cur]
  | c :: cs =>
    if jsWs c then
      if cur = [] then tokensWsAux [] cs else cur :: tokensWsAux [] cs
    else tokensWsAux (cur ++ [c]) cs

/-- Whitespace tokenization of a string (spec-side definition). -/
def tokensWs (l : List Char) : List (List Char) := tokensWsAux [] l

/-- Spec-side reading of "numeric literal": an optional sign followed by at
least one decimal digit (the integer literals the summary counters are
compared against).  The empty string is not a literal. -/
def isNumericLiteral (l : List Char) : Bool :=
  match l with
  | [] => false
  | c :: cs =>
    if c = '+' ∨ c = '-' then !cs.isEmpty && cs.all isDigitC
    else (c :: cs).all isDigitC

/-- Spec-side substring test: does `pat` occur contiguously inside the
list? -/
def containsSub (pat : List Char) : List Char → Bool
  | [] => pat.isEmpty
  | c :: cs => pat.isPrefixOf (c :: cs) || containsSub pat cs

/-! ### Helper lemmas about the string model -/

theorem splitChar_no_sep {sep : Char} {l : List Char} (h : sep ∉ l) :
    splitChar sep l = [l] := by
  induction l with
  | nil => rfl
  | cons c cs ih =>
    have hc : ¬ c = sep := fun e => h (by simp [e])
    have hcs : sep ∉ cs := fun m => h (List.mem_cons_of_mem _ m)
    simp only [splitChar, if_neg hc]
    rw [ih hcs]

theorem splitChar_append_sep {sep : Char} {a rest : List Char} (h : sep ∉ a) :
    splitChar sep (a ++ sep :: rest) = a :: splitChar sep rest := by
  induction a with
  | nil => simp [splitChar]
  | cons c cs ih =>
    have hc : ¬ c = sep := fun e => h (by simp [e])
    have hcs : sep ∉ cs := fun m => h (List.mem_cons_of_mem _ m)
    have hstep : splitChar sep ((c :: cs) ++ sep :: rest) =
        (match splitChar sep (cs ++ sep :: rest) with
         | [] => [[c]]
         | t :: ts => (c :: t) :: ts) := by
      simp only [List.cons_append, splitChar, if_neg hc]
      rfl
    rw [hstep, ih hcs]

theorem trimLeft_of_not_ws {l : List Char} (h : ∀ c ∈ l, jsWs c = false) :
    trimLeft l = l := by
  cases l with
  | nil => rfl
  | cons c cs => simp [trimLeft, h c (List.mem_cons_self _ _)]

theorem trimRight_of_not_ws {l : List Char} (h : ∀ c ∈ l, jsWs c = false) :
    trimRight l = l := by
  induction l with
  | nil => rfl
  | cons c cs ih =>
    have hcs : ∀ x ∈ cs, jsWs x = false := fun x hx => h x (List.mem_cons_of_mem _ hx)
    have hc : jsWs c = false := h c (List.mem_cons_self _ _)
    simp only [trimRight]
    rw [ih hcs]
    cases cs with
    | nil => simp [hc]
    | cons d ds => rfl

theorem trimJs_of_not_ws {l : List Char} (h : ∀ c ∈ l, jsWs c = false) :
    trimJs l = l := by
  unfold trimJs
  rw [trimLeft_of_not_ws h, trimRight_of_not_ws h]

theorem mem_of_mem_trimLeft {l : List Char} {x : Char} (h : x ∈ trimLeft l) :
    x ∈ l := by
  induction l with
  | nil => simp [trimLeft] at h
  | cons c cs ih =>
    by_cases hw : jsWs c
    · simp only [trimLeft, if_pos hw] at h
      exact List.mem_cons_of_mem _ (ih h)
    · simpa [trimLeft, if_neg hw] using h

theorem mem_of_mem_trimRight {l : List Char} {x : Char} (h : x ∈ trimRight l) :
    x ∈ l := by
  induction l with
  | nil => simp [trimRight] at h
  | cons c cs ih =>
    simp only [trimRight] at h
    cases htr : trimRight cs with
    | nil =>
      rw [htr] at h
      by_cases hw : jsWs c
      · simp [if_pos hw] at h
      · simp only [if_neg hw, List.mem_singleton] at h
        simp [h]
    | cons d ds =>
      rw [htr] at h
      rcases List.mem_cons.mp h with h | h
      · simp [h]
      · exact List.mem_cons_of_mem _ (ih (htr ▸ h))

theorem mem_of_mem_trimJs {l : List Char} {x : Char} (h : x ∈ trimJs l) :
    x ∈ l :=
  mem_of_mem_trimLeft (mem_of_mem_trimRight h)

theorem trimLeft_shape (l : List Char) :
    trimLeft l = [] ∨ ∃ c cs, trimLeft l = c :: cs ∧ jsWs c = false := by
  induction l with
  | nil => exact Or.inl rfl
  | cons c cs ih =>
    by_cases hw : jsWs c
    · simpa [trimLeft, if_pos hw] using ih
    · exact Or.inr ⟨c, cs, by simp [trimLeft, if_neg hw], by simpa using hw⟩

theorem trimRight_cons_shape (c : Char) (cs : List Char) :
    trimRight (c :: cs) = [] ∨ ∃ t, trimRight (c :: cs) = c :: t := by
  simp only [trimRight]
  cases trimRight cs with
  | nil =>
    by_cases hw : jsWs c
    · exact Or.inl (by simp [if_pos hw])
    · exact Or.inr ⟨[], by simp [if_neg hw]⟩
  | cons d ds => exact Or.inr ⟨d :: ds, rfl⟩

theorem trimRight_cons_step (c : Char) (cs : List Char) :
    trimRight (c :: cs) =
      (match trimRight cs with
       | [] => if jsWs c then [] else [c]
       | t => c :: t) := rfl

theorem trimRight_idem (l : List Char) : trimRight (trimRight l) = trimRight l := by
  induction l with
  | nil => rfl
  | cons c cs ih =>
    cases htr : trimRight cs with
    | nil =>
      by_cases hw : jsWs c
      · rw [trimRight_cons_step, htr]
        simp [hw, trimRight]
      · rw [trimRight_cons_step, htr]
        simp [hw, trimRight_cons_step, trimRight]
    | cons d ds =>
      rw [htr] at ih
      rw [trimRight_cons_step, htr]
      rw [trimRight_cons_step c (d :: ds), ih]

theorem trimJs_idem (l : List Char) : trimJs (trimJs l) = trimJs l := by
  unfold trimJs
  rcases trimLeft_shape l with h | ⟨c, cs, h, hw⟩
  · rw [h]; rfl
  · rw [h]
    rcases trimRight_cons_shape c cs with h2 | ⟨t, h2⟩
    · rw [h2]; rfl
    · rw [h2]
      have h3 : trimLeft (c :: t) = c :: t := by simp [trimLeft, hw]
      rw [h3, ← h2, trimRight_idem]

theorem not_ws_of_digit {c : Char} (h : isDigitC c = true) : jsWs c = false := by
  simp only [isDigitC, decide_eq_true_eq] at h
  simp only [jsWs, decide_eq_false_iff_not]
  omega

theorem getField?_key_cases {key : List Char} {s : LogSummaryForAdvice} {v : Nat}
    (h : getField? key s = some v) :
    key = strL "goodThoughts" ∨ key = strL "badThoughts" ∨
    key = strL "goodActions" ∨ key = strL "badActions" ∨
    key = strL "goodWordsCount" ∨ key = strL "badWordsCount" ∨
    key = strL "happyEvents" ∨ key = strL "toughEvents" := by
  by_contra hc
  push_neg at hc
  obtain ⟨n1, n2, n3, n4, n5, n6, n7, n8⟩ := hc
  unfold getField? at h
  rw [if_neg n1, if_neg n2, if_neg n3, if_neg n4, if_neg n5, if_neg n6,
    if_neg n7, if_neg n8] at h
  exact absurd h (by simp)

theorem getField?_no_ws {key : List Char} {s : LogSummaryForAdvice} {v : Nat}
    (h : getField? key s = some v) : ∀ c ∈ key, jsWs c = false := by
  rcases getField?_key_cases h with rfl | rfl | rfl | rfl | rfl | rfl | rfl | rfl
  all_goals decide

/-! ### C3: well-formed `leftKey op number` criteria evaluate as the numeric
comparison; unknown operators yield false -/

theorem digitsValT_cons (acc : Nat) (c : Char) (cs : List Char) :
    digitsValT acc (c :: cs) = digitsValT (acc * 10 + (c.toNat - 48)) cs := rfl

theorem digitsValAux_of_digits (l : List Char) :
    ∀ (acc : Nat), (∀ c ∈ l, isDigitC c = true) →
      digitsValAux acc l = some (digitsValT acc l) := by
  induction l with
  | nil =>
    intro acc _
    rfl
  | cons c cs ih =>
    intro acc h
    have hc := h c (List.mem_cons_self _ _)
    rw [show digitsValAux acc (c :: cs)
        = if isDigitC c then digitsValAux (acc * 10 + (c.toNat - 48)) cs else none
      from rfl, if_pos hc, digitsValT_cons]
    exact ih _ (fun x hx => h x (List.mem_cons_of_mem _ hx))

theorem takeWhile_all_of_digits {l : List Char} (h : ∀ c ∈ l, isDigitC c = true) :
    l.takeWhile isDigitC = l := by
  induction l with
  | nil => rfl
  | cons c cs ih =>
    rw [List.takeWhile_cons, if_pos (h c (List.mem_cons_self _ _)),
      ih (fun x hx => h x (List.mem_cons_of_mem _ hx))]

/-- C3: for every summary and every criteria of the shape
`leftKey op number` — `leftKey` a valid LogSummary field (holding value `v`),
`op` a whitespace-free token, and the right operand a digit string of value
`m` — `evaluateCriteria` returns exactly the numeric comparison selected by
the operator (`specCompare`, equality included), and returns false whenever
the operator is outside the five supported ones. -/
theorem claim_C3 (s : LogSummaryForAdvice) (key op ds : List Char) (v m : Nat)
    (hkey : getField? key s = some v)
    (hop : ∀ c ∈ op, jsWs c = false)
    (hds : ds ≠ [])
    (hdig : ∀ c ∈ ds, isDigitC c = true)
    (hval : digitsVal? ds = some m) :
    evaluateCriteria (key ++ (' ' :: (op ++ (' ' :: ds)))) s
      = specCompare op (Int.ofNat v) (Int.ofNat m) ∧
    (op ∉ [strL ">", strL "<", strL ">=", strL "<=", strL "=="] →
      evaluateCriteria (key ++ (' ' :: (op ++ (' ' :: ds)))) s = false) := by
  have hkws := getField?_no_ws hkey
  have hkeysp : ' ' ∉ key := fun hm => absurd (hkws ' ' hm) (by decide)
  have hopsp : ' ' ∉ op := fun hm => absurd (hop ' ' hm) (by decide)
  have hdsws : ∀ c ∈ ds, jsWs c = false := fun c hc => not_ws_of_digit (hdig c hc)
  have hdssp : ' ' ∉ ds := fun hm => absurd (hdsws ' ' hm) (by decide)
  have hsplit : splitChar ' ' (key ++ (' ' :: (op ++ (' ' :: ds)))) = [key, op, ds] := by
    rw [splitChar_append_sep hkeysp, splitChar_append_sep hopsp,
      splitChar_no_sep hdssp]
  have hmem : ' ' ∈ key ++ (' ' :: (op ++ (' ' :: ds))) := by simp
  have hnnil : key ++ (' ' :: (op ++ (' ' :: ds))) ≠ [] := List.ne_nil_of_mem hmem
  have hnAM : key ++ (' ' :: (op ++ (' ' :: ds))) ≠ ALWAYS_MATCH_STR := by
    intro he
    rw [he] at hmem
    exact absurd hmem (by decide)
  have hcond : ¬(key ++ (' ' :: (op ++ (' ' :: ds))) = ALWAYS_MATCH_STR ∨
      key ++ (' ' :: (op ++ (' ' :: ds))) = []) := by
    push_neg
    exact ⟨hnAM, hnnil⟩
  have hmap : (splitChar ' ' (key ++ (' ' :: (op ++ (' ' :: ds))))).map trimJs
      = [key, op, ds] := by
    rw [hsplit]
    simp only [List.map]
    rw [trimJs_of_not_ws hkws, trimJs_of_not_ws hop, trimJs_of_not_ws hdsws]
  have hnum : jsNumber? ds = some (JsNum.finite (m : ℚ)) := by
    cases ds with
    | nil => exact absurd rfl hds
    | cons d ds' =>
      have hd := hdig d (List.mem_cons_self _ _)
      have hvalT : digitsValT 0 (d :: ds') = m := by
        have h1 : digitsValAux 0 (d :: ds') = some (digitsValT 0 (d :: ds')) :=
          digitsValAux_of_digits _ _ hdig
        have h2 : digitsVal? (d :: ds') = digitsValAux 0 (d :: ds') := rfl
        rw [h2, h1] at hval
        injection hval with h3
      have hne : (d :: ds' : List Char) ≠ [] := by simp
      have hnondec : parseNonDecimal? (d :: ds') = none := by
        cases ds' with
        | nil => rfl
        | cons c rest =>
          have hc := hdig c (by simp)
          have n1 : ¬(d = '0' ∧ (c = 'x' ∨ c = 'X')) := by
            rintro ⟨-, hx | hx⟩ <;> (rw [hx] at hc; exact absurd hc (by decide))
          have n2 : ¬(d = '0' ∧ (c = 'o' ∨ c = 'O')) := by
            rintro ⟨-, hx | hx⟩ <;> (rw [hx] at hc; exact absurd hc (by decide))
          have n3 : ¬(d = '0' ∧ (c = 'b' ∨ c = 'B')) := by
            rintro ⟨-, hx | hx⟩ <;> (rw [hx] at hc; exact absurd hc (by decide))
          simp only [parseNonDecimal?, if_neg n1, if_neg n2, if_neg n3]
      have hplus : ¬ d = '+' := by
        intro e
        rw [e] at hd
        exact absurd hd (by decide)
      have hminus : ¬ d = '-' := by
        intro e
        rw [e] at hd
        exact absurd hd (by decide)
      have hInf : (d :: ds' : List Char) ≠ strL "Infinity" := by
        intro e
        rw [show strL "Infinity" = 'I' :: strL "nfinity" from rfl] at e
        injection e with e1 _
        rw [e1] at hd
        exact absurd hd (by decide)
      have htw : (d :: ds').takeWhile isDigitC = d :: ds' :=
        takeWhile_all_of_digits hdig
      have hdl : parseDecimalLit? (d :: ds')
          = some (decPartsVal (d :: ds') [] * pow10Z 0) := by
        simp only [parseDecimalLit?, htw, List.drop_length]
        rw [if_neg hne]
        rfl
      have hq : decPartsVal (d :: ds') [] * pow10Z 0 = (m : ℚ) := by
        rw [show pow10Z 0 = 1 from rfl, mul_one]
        rw [show decPartsVal (d :: ds') []
            = (digitsValT 0 (d :: ds') : ℚ)
              + ((digitsValT 0 [] : Nat) : ℚ) / (10 : ℚ) ^ (0 : Nat) from rfl]
        rw [show digitsValT 0 [] = 0 from rfl, hvalT]
        simp
      simp only [jsNumber?, if_neg hne, hnondec, if_neg hplus, if_neg hminus,
        jsSigned?, if_neg hInf, hdl, Option.map_some']
      simp [hq]
  have hmain : evaluateCriteria (key ++ (' ' :: (op ++ (' ' :: ds)))) s
      = specCompare op (Int.ofNat v) (Int.ofNat m) := by
    simp only [evaluateCriteria, if_neg hcond, hmap, hkey, hnum, specCompare,
      jsGt, jsLt, jsGe, jsLe, jsEq]
    split_ifs
    · exact decide_eq_decide.mpr (by
        rw [gt_iff_lt, gt_iff_lt, Nat.cast_lt, Int.ofNat_eq_natCast,
          Int.ofNat_eq_natCast, Nat.cast_lt])
    · exact decide_eq_decide.mpr (by
        rw [Nat.cast_lt, Int.ofNat_eq_natCast, Int.ofNat_eq_natCast, Nat.cast_lt])
    · exact decide_eq_decide.mpr (by
        rw [ge_iff_le, ge_iff_le, Nat.cast_le, Int.ofNat_eq_natCast,
          Int.ofNat_eq_natCast, Nat.cast_le])
    · exact decide_eq_decide.mpr (by
        rw [Nat.cast_le, Int.ofNat_eq_natCast, Int.ofNat_eq_natCast, Nat.cast_le])
    · exact decide_eq_decide.mpr (by
        rw [Nat.cast_inj, Int.ofNat_eq_natCast, Int.ofNat_eq_natCast, Nat.cast_inj])
    · rfl
  refine ⟨hmain, fun hop5 => ?_⟩
  rw [hmain]
  simp only [List.mem_cons, List.mem_singleton, not_or] at hop5
  obtain ⟨o1, o2, o3, o4, o5⟩ := hop5
  simp [specCompare, o1, o2, o3, o4, o5]

/-- C3 witness: `goodThoughts > 3` against a summary with `goodThoughts = 5`
evaluates to the comparison `5 > 3`. -/
theorem claim_C3_witness :
    evaluateCriteria (strL "goodThoughts" ++ (' ' :: (strL ">" ++ (' ' :: strL "3"))))
        (⟨5, 0, 0, 0, 0, 0, 0, 0⟩ : LogSummaryForAdvice)
      = specCompare (strL ">") (Int.ofNat 5) (Int.ofNat 3) :=
  (claim_C3 ⟨5, 0, 0, 0, 0, 0, 0, 0⟩ (strL "goodThoughts") (strL ">") (strL "3")
    5 3 (by decide) (by decide) (by decide) (by decide) (by decide)).1

/-! ### C4: sentinel and token-count behaviour -/

/-- C4 counterexample: the criteria `"goodThoughts > "` (trailing space) has
only 2 whitespace-separated tokens — not 3 — and is neither empty nor the
sentinel, yet `evaluateCriteria` returns true on it (the source splits on
single spaces keeping empty parts, and `Number('')` is `0`), refuting the
claim that every such string evaluates to false. -/
theorem claim_C4_counterexample :
    (tokensWs (strL "goodThoughts > ")).length = 2 ∧
    strL "goodThoughts > " ≠ [] ∧
    strL "goodThoughts > " ≠ ALWAYS_MATCH_STR ∧
    evaluateCriteria (strL "goodThoughts > ")
      (⟨1, 0, 0, 0, 0, 0, 0, 0⟩ : LogSummaryForAdvice) = true := by
  decide

/-- C4 (amended): `evaluateCriteria` returns true on the empty string and on
the `ALWAYS_MATCH` sentinel; every other criteria string that does not split
on single space characters (empty parts counted) into exactly 3 parts
evaluates to false. -/
theorem claim_C4 (s : LogSummaryForAdvice) (c : List Char)
    (h1 : c ≠ []) (h2 : c ≠ ALWAYS_MATCH_STR)
    (h3 : (splitChar ' ' c).length ≠ 3) :
    evaluateCriteria [] s = true ∧
    evaluateCriteria ALWAYS_MATCH_STR s = true ∧
    evaluateCriteria c s = false := by
  refine ⟨by simp [evaluateCriteria], by simp [evaluateCriteria], ?_⟩
  have hcond : ¬(c = ALWAYS_MATCH_STR ∨ c = []) := by
    push_neg
    exact ⟨h2, h1⟩
  simp only [evaluateCriteria, if_neg hcond]
  have hlen : ((splitChar ' ' c).map trimJs).length ≠ 3 := by simpa using h3
  revert hlen
  generalize (splitChar ' ' c).map trimJs = parts
  intro hlen
  rcases parts with _ | ⟨a, _ | ⟨b, _ | ⟨d, _ | ⟨e, rest⟩⟩⟩⟩
  · rfl
  · rfl
  · rfl
  · simp at hlen
  · rfl

/-- C4 witness: `"ab"` splits into one part, and evaluates to false. -/
theorem claim_C4_witness :
    evaluateCriteria [] (⟨0, 0, 0, 0, 0, 0, 0, 0⟩ : LogSummaryForAdvice) = true ∧
    evaluateCriteria ALWAYS_MATCH_STR (⟨0, 0, 0, 0, 0, 0, 0, 0⟩ : LogSummaryForAdvice) = true ∧
    evaluateCriteria (strL "ab") (⟨0, 0, 0, 0, 0, 0, 0, 0⟩ : LogSummaryForAdvice) = false :=
  claim_C4 ⟨0, 0, 0, 0, 0, 0, 0, 0⟩ (strL "ab") (by decide) (by decide) (by decide)

/-! ### C5: malformed criteria never match -/

/-- C5 counterexample: in `"goodThoughts >= "` the right operand is the empty
string — neither a numeric literal nor a field name — yet the criteria
evaluates to true on the all-zero summary (`Number('')` is `0`, so the
comparison runs as `0 >= 0`), refuting the claim that such criteria always
evaluate to false. -/
theorem claim_C5_counterexample :
    (splitChar ' ' (strL "goodThoughts >= ")).map trimJs
        = [strL "goodThoughts", strL ">=", []] ∧
    isNumericLiteral [] = false ∧
    getField? [] (⟨0, 0, 0, 0, 0, 0, 0, 0⟩ : LogSummaryForAdvice) = none ∧
    evaluateCriteria (strL "goodThoughts >= ")
      (⟨0, 0, 0, 0, 0, 0, 0, 0⟩ : LogSummaryForAdvice) = true := by
  decide

/-- C5 (amended): `evaluateCriteria` is a total Boolean function (never
throws, by construction of the model); for every 3-part criteria, if the left
operand is not one of the eight field names the result is false, and if the
right operand neither coerces to a number under JavaScript `Number()`
coercion (whose grammar accepts the empty string as `0`, signed decimals
with fraction and exponent, hex/octal/binary integers and `Infinity`) nor
names a field, the result is false. -/
theorem claim_C5 (c : List Char) (s : LogSummaryForAdvice) (p0 p1 p2 : List Char)
    (hmap : (splitChar ' ' c).map trimJs = [p0, p1, p2]) :
    (getField? p0 s = none → evaluateCriteria c s = false) ∧
    (jsNumber? p2 = none → getField? p2 s = none →
      evaluateCriteria c s = false) := by
  have hnnil : c ≠ [] := by
    rintro rfl
    rw [show (splitChar ' ' ([] : List Char)).map trimJs = [[]] from rfl] at hmap
    simp at hmap
  have hnAM : c ≠ ALWAYS_MATCH_STR := by
    rintro rfl
    rw [show (splitChar ' ' ALWAYS_MATCH_STR).map trimJs = [ALWAYS_MATCH_STR]
      from by decide] at hmap
    simp at hmap
  have hcond : ¬(c = ALWAYS_MATCH_STR ∨ c = []) := by
    push_neg
    exact ⟨hnAM, hnnil⟩
  constructor
  · intro h0
    simp only [evaluateCriteria, if_neg hcond, hmap, h0]
  · intro hnum hfld
    cases hg : getField? p0 s with
    | none => simp only [evaluateCriteria, if_neg hcond, hmap, hg]
    | some v => simp [evaluateCriteria, if_neg hcond, hmap, hg, hnum, hfld]

/-- C5 witness: `"x y z"` has an invalid left operand and evaluates to
false. -/
theorem claim_C5_witness :
    evaluateCriteria (strL "x y z") (⟨0, 0, 0, 0, 0, 0, 0, 0⟩ : LogSummaryForAdvice) = false :=
  (claim_C5 (strL "x y z") ⟨0, 0, 0, 0, 0, 0, 0, 0⟩ (strL "x") (strL "y") (strL "z")
    (by decide)).1 (by decide)

/-! ### C1 and C10: findAndPick selection -/

theorem suitablePool_mem {recs : List AdviceItem} {s : LogSummaryForAdvice}
    {ty : List Char} {st : Option (List Char)} {it : AdviceItem}
    (h : it ∈ suitablePool recs s ty st) :
    it ∈ recs ∧ it.type = ty ∧ evaluateCriteria it.criteria s = true ∧
    ∀ sub, st = some sub → sub ≠ [] → it.subtype = sub := by
  cases st with
  | none =>
    simp only [suitablePool, List.mem_filter, beq_iff_eq] at h
    exact ⟨h.1.1, h.1.2, h.2, fun sub hs => by cases hs⟩
  | some sub =>
    by_cases hsub : sub = []
    · subst hsub
      have h' : it ∈ (recs.filter (fun item => item.type == ty)).filter
          (fun item => evaluateCriteria item.criteria s) := h
      simp only [List.mem_filter, beq_iff_eq] at h'
      refine ⟨h'.1.1, h'.1.2, h'.2, fun sub' hs hne => ?_⟩
      injection hs with e
      rw [← e] at hne
      exact absurd rfl hne
    · simp only [suitablePool, if_neg hsub, List.mem_filter, beq_iff_eq] at h
      refine ⟨h.1.1.1, h.1.1.2, h.2, fun sub' hs hne => ?_⟩
      injection hs with e
      rw [← e]
      exact h.1.2

theorem findAndPick_none_iff {recs : List AdviceItem} {s : LogSummaryForAdvice}
    {ty : List Char} {st : Option (List Char)} {r : Nat} :
    findAndPick recs s ty st r = none ↔ suitablePool recs s ty st = [] := by
  constructor
  · intro h
    by_contra hne
    have hlen : 0 < (suitablePool recs s ty st).length := List.length_pos.mpr hne
    simp only [findAndPick, if_pos hlen, pickRandom] at h
    have hmod : r % (suitablePool recs s ty st).length <
        (suitablePool recs s ty st).length := Nat.mod_lt _ hlen
    rw [List.getElem?_eq_getElem hmod] at h
    exact absurd h (by simp)
  · intro h
    simp [findAndPick, h]

theorem findAndPick_mem_suitable {recs : List AdviceItem} {s : LogSummaryForAdvice}
    {ty : List Char} {st : Option (List Char)} {r : Nat} {it : AdviceItem}
    (h : findAndPick recs s ty st r = some it) :
    it ∈ suitablePool recs s ty st := by
  by_cases hlen : 0 < (suitablePool recs s ty st).length
  · simp only [findAndPick, if_pos hlen, pickRandom] at h
    rw [List.getElem?_eq_some] at h
    obtain ⟨hlt, he⟩ := h
    rw [← he]
    exact List.getElem_mem hlt
  · simp only [findAndPick, if_neg hlen] at h
    cases h

/-- C1: for every record set, summary, type, optional subtype and random
outcome, `findAndPick` only ever returns a record of the record set whose
type matches exactly, whose subtype matches exactly when a subtype was given
(given meaning truthy: non-null and non-empty, as in the source's
`if (subtype)`), and whose criteria evaluates true against the summary; and
it returns `none` exactly when the type/subtype/criteria-filtered pool is
empty. -/
theorem claim_C1 (recs : List AdviceItem) (s : LogSummaryForAdvice)
    (ty : List Char) (st : Option (List Char)) (r : Nat) :
    (∀ it, findAndPick recs s ty st r = some it →
      evaluateCriteria it.criteria s = true ∧ it ∈ recs ∧ it.type = ty ∧
      ∀ sub, st = some sub → sub ≠ [] → it.subtype = sub) ∧
    (findAndPick recs s ty st r = none ↔ suitablePool recs s ty st = []) := by
  constructor
  · intro it hit
    obtain ⟨h1, h2, h3, h4⟩ := suitablePool_mem (findAndPick_mem_suitable hit)
    exact ⟨h3, h1, h2, h4⟩
  · exact findAndPick_none_iff

/-- C1 witness: on a one-record pool with the always-match criteria,
`findAndPick` returns that record, which satisfies all the guarantees. -/
theorem claim_C1_witness :
    evaluateCriteria
        (⟨strL "strength", strL "balance", strL "ok", ALWAYS_MATCH_STR⟩ : AdviceItem).criteria
        (⟨0, 0, 0, 0, 0, 0, 0, 0⟩ : LogSummaryForAdvice) = true ∧
    (⟨strL "strength", strL "balance", strL "ok", ALWAYS_MATCH_STR⟩ : AdviceItem) ∈
      [(⟨strL "strength", strL "balance", strL "ok", ALWAYS_MATCH_STR⟩ : AdviceItem)] ∧
    (⟨strL "strength", strL "balance", strL "ok", ALWAYS_MATCH_STR⟩ : AdviceItem).type
      = strL "strength" ∧
    (∀ sub, (none : Option (List Char)) = some sub → sub ≠ [] →
      (⟨strL "strength", strL "balance", strL "ok", ALWAYS_MATCH_STR⟩ : AdviceItem).subtype = sub) :=
  (claim_C1 [⟨strL "strength", strL "balance", strL "ok", ALWAYS_MATCH_STR⟩]
    ⟨0, 0, 0, 0, 0, 0, 0, 0⟩ (strL "strength") none 0).1
    ⟨strL "strength", strL "balance", strL "ok", ALWAYS_MATCH_STR⟩ (by decide)

theorem suitablePool_subtype_subset {recs : List AdviceItem}
    {s : LogSummaryForAdvice} {ty sub : List Char} (it : AdviceItem)
    (h : it ∈ suitablePool recs s ty (some sub)) :
    it ∈ suitablePool recs s ty none := by
  by_cases hsub : sub = []
  · subst hsub
    exact h
  · simp only [suitablePool, if_neg hsub, List.mem_filter] at h ⊢
    exact ⟨h.1.1, h.2⟩

theorem findAndPick_none_propagate {recs : List AdviceItem}
    {s : LogSummaryForAdvice} {ty sub : List Char} {r r' : Nat}
    (h : findAndPick recs s ty none r = none) :
    findAndPick recs s ty (some sub) r' = none := by
  rw [findAndPick_none_iff] at h ⊢
  by_contra hne
  obtain ⟨it, hit⟩ := List.exists_mem_of_ne_nil _ hne
  have hmem := suitablePool_subtype_subset it hit
  rw [h] at hmem
  exact absurd hmem (List.not_mem_nil _)

/-- C10: the subtype filter only narrows the pool — the eligible pool with a
subtype is a subset of the pool without one — so whenever
`findAndPick(type)` returns `none`, `findAndPick(type, subtype)` returns
`none` for every random choice; in particular a missed
`findAndPick('strength')` forces the `'balance'` fallback to miss too, so
the strength section then always falls through to the fixed encouragement
sentence. -/
theorem claim_C10 (recs : List AdviceItem) (s : LogSummaryForAdvice)
    (ty sub : List Char) (r r' : Nat) (rnd : Nat → Nat) :
    (∀ it, it ∈ suitablePool recs s ty (some sub) →
      it ∈ suitablePool recs s ty none) ∧
    (findAndPick recs s ty none r = none →
      findAndPick recs s ty (some sub) r' = none) ∧
    (findAndPick recs s (strL "strength") none (rnd 2) = none →
      strengthItem recs s rnd = encouragementMsg ++ strL "\n\n") := by
  refine ⟨fun it => suitablePool_subtype_subset it,
    fun h => findAndPick_none_propagate h, fun h => ?_⟩
  have hb : findAndPick recs s (strL "strength") (some (strL "balance")) (rnd 3)
      = none := findAndPick_none_propagate h
  simp only [strengthItem, h, hb]

/-- C10 witness: with an empty record set the strength pick misses and the
strength item is the encouragement sentence. -/
theorem claim_C10_witness :
    strengthItem [] (⟨1, 0, 0, 0, 0, 0, 0, 0⟩ : LogSummaryForAdvice) (fun _ => 0)
      = encouragementMsg ++ strL "\n\n" :=
  (claim_C10 [] ⟨1, 0, 0, 0, 0, 0, 0, 0⟩ (strL "strength") (strL "balance") 0 0
    (fun _ => 0)).2.2 (by decide)

/-! ### C2, C6, C7, C8: generateDetailedAdvice contract -/

set_option maxRecDepth 40000 in
/-- C2 counterexample: neither the empty-dataset nor the failed-load case
returns the data-unavailable message.  A successfully loaded *empty* record
list (a truthy JavaScript array) with a non-null, non-zero summary proceeds
to composition; a failed load rethrows from the awaited fetch inside the
`try` and the `catch` returns the fixed generation-failed message, which is
not the data-unavailable message either. -/
theorem claim_C2_counterexample :
    generateDetailedAdvice (some []) (some (⟨0, 1, 0, 0, 0, 0, 0, 0⟩ : LogSummaryForAdvice))
      (strL "이번 주") (fun _ => 0) ≠ dataUnavailableMsg ∧
    generateDetailedAdvice none (some (⟨0, 1, 0, 0, 0, 0, 0, 0⟩ : LogSummaryForAdvice))
      (strL "이번 주") (fun _ => 0) = generationFailedMsg ∧
    generationFailedMsg ≠ dataUnavailableMsg := by
  refine ⟨by decide, rfl, by decide⟩

/-- C2 (amended): for every non-null summary, period label and random
outcome, `generateDetailedAdvice` never throws, but a failed dataset load
does not yield the data-unavailable message: the rethrown fetch error is
caught and converted to the fixed generation-failed message (and a loaded
empty record list proceeds to composition).  The data-unavailable message is
returned exactly when the dataset is loaded and the summary is absent. -/
theorem claim_C2 (s : LogSummaryForAdvice) (recs : List AdviceItem)
    (periodLabel : List Char) (rnd : Nat → Nat) :
    generateDetailedAdvice none (some s) periodLabel rnd = generationFailedMsg ∧
    generateDetailedAdvice (some recs) none periodLabel rnd = dataUnavailableMsg :=
  ⟨rfl, rfl⟩

set_option maxRecDepth 40000 in
/-- C6 counterexample: at a zero-sum summary with a loaded dataset the result
is the fixed no-activity message, which is neither composed advice text at
that input nor either of the two fixed fallback strings — refuting the claim
that every result is one of those. -/
theorem claim_C6_counterexample :
    generateDetailedAdvice
        (some [⟨strL "closing", strL "default", strL "bye", ALWAYS_MATCH_STR⟩])
        (some (⟨0, 0, 0, 0, 0, 0, 0, 0⟩ : LogSummaryForAdvice))
        (strL "오늘") (fun _ => 0)
      = noActivityMsg ∧
    noActivityMsg ≠ dataUnavailableMsg ∧
    noActivityMsg ≠ generationFailedMsg ∧
    noActivityMsg ≠ replaceSummaryPlaceholders ⟨0, 0, 0, 0, 0, 0, 0, 0⟩
      (composeAdvice [⟨strL "closing", strL "default", strL "bye", ALWAYS_MATCH_STR⟩]
        ⟨0, 0, 0, 0, 0, 0, 0, 0⟩ (strL "오늘") (fun _ => 0)) := by
  decide

/-- C6 (amended): for every input, `generateDetailedAdvice` totally returns a
string (never rejects), and the result is the generation-failed message (the
catch's conversion of a failed awaited load), the data-unavailable message
(loaded dataset, absent summary), the no-activity message, or the fully
composed section pipeline with placeholders substituted; within the
loaded-cache composition itself the catch never fires, every step being
total. -/
theorem claim_C6 (cache : Option (List AdviceItem))
    (logSummary : Option LogSummaryForAdvice) (periodLabel : List Char)
    (rnd : Nat → Nat) :
    generateDetailedAdvice cache logSummary periodLabel rnd = generationFailedMsg ∨
    generateDetailedAdvice cache logSummary periodLabel rnd = dataUnavailableMsg ∨
    generateDetailedAdvice cache logSummary periodLabel rnd = noActivityMsg ∨
    ∃ recs s, cache = some recs ∧ logSummary = some s ∧
      generateDetailedAdvice cache logSummary periodLabel rnd
        = replaceSummaryPlaceholders s (composeAdvice recs s periodLabel rnd) := by
  cases cache with
  | none => exact Or.inl rfl
  | some recs =>
    cases logSummary with
    | none => exact Or.inr (Or.inl rfl)
    | some s =>
      by_cases h : sumFields s = 0
      · exact Or.inr (Or.inr (Or.inl (by simp [generateDetailedAdvice, h])))
      · exact Or.inr (Or.inr (Or.inr
          ⟨recs, s, rfl, rfl, by simp [generateDetailedAdvice, h]⟩))

/-- C7: with a loaded dataset of any contents and a non-null summary whose
eight fields sum to zero, `generateDetailedAdvice` returns the fixed
no-activity message, bypassing composition. -/
theorem claim_C7 (recs : List AdviceItem) (s : LogSummaryForAdvice)
    (periodLabel : List Char) (rnd : Nat → Nat) (h : sumFields s = 0) :
    generateDetailedAdvice (some recs) (some s) periodLabel rnd = noActivityMsg := by
  simp [generateDetailedAdvice, h]

set_option maxRecDepth 40000 in
/-- C7 witness: the all-zero summary against a non-empty dataset yields the
no-activity message. -/
theorem claim_C7_witness :
    generateDetailedAdvice
        (some [⟨strL "intro", strL "default", strL "hi", ALWAYS_MATCH_STR⟩])
        (some (⟨0, 0, 0, 0, 0, 0, 0, 0⟩ : LogSummaryForAdvice))
        (strL "오늘") (fun _ => 0)
      = noActivityMsg :=
  claim_C7 [⟨strL "intro", strL "default", strL "hi", ALWAYS_MATCH_STR⟩]
    ⟨0, 0, 0, 0, 0, 0, 0, 0⟩ (strL "오늘") (fun _ => 0) (by decide)

set_option maxRecDepth 40000 in
/-- C8 counterexample: a successfully composed advice (loaded dataset,
non-null summary with positive sum) in which the strength section falls
through to the fixed encouragement sentence, which is appended *without* a
`"1. "` prefix — the whole composed string contains no `"1. "` at all —
refuting "in all three cases it always contributes exactly one numbered
item". -/
theorem claim_C8_counterexample :
    sumFields (⟨2, 0, 0, 0, 0, 0, 0, 0⟩ : LogSummaryForAdvice) ≠ 0 ∧
    strengthItem [⟨strL "growth", strL "지식", strL "learn", ALWAYS_MATCH_STR⟩]
        (⟨2, 0, 0, 0, 0, 0, 0, 0⟩ : LogSummaryForAdvice) (fun _ => 0)
      = encouragementMsg ++ strL "\n\n" ∧
    (strL "1. ").isPrefixOf
        (strengthItem [⟨strL "growth", strL "지식", strL "learn", ALWAYS_MATCH_STR⟩]
          (⟨2, 0, 0, 0, 0, 0, 0, 0⟩ : LogSummaryForAdvice) (fun _ => 0)) = false ∧
    containsSub (strL "1. ")
        (generateDetailedAdvice
          (some [⟨strL "growth", strL "지식", strL "learn", ALWAYS_MATCH_STR⟩])
          (some (⟨2, 0, 0, 0, 0, 0, 0, 0⟩ : LogSummaryForAdvice))
          (strL "오늘") (fun _ => 0)) = false := by
  decide

/-- C8 (amended): in every successfully composed advice string the strength
section tries `findAndPick('strength')`, then `findAndPick('strength',
'balance')` — each hit contributing exactly one item numbered `"1. "` — and
otherwise appends the fixed encouragement sentence without a number prefix;
the composed advice is the section concatenation with the strength item in
place. -/
theorem claim_C8 (recs : List AdviceItem) (s : LogSummaryForAdvice)
    (periodLabel : List Char) (rnd : Nat → Nat) :
    (∀ it, findAndPick recs s (strL "strength") none (rnd 2) = some it →
      strengthItem recs s rnd = strL "1. " ++ it.text ++ strL "\n\n") ∧
    (findAndPick recs s (strL "strength") none (rnd 2) = none →
      ∀ it, findAndPick recs s (strL "strength") (some (strL "balance")) (rnd 3)
          = some it →
        strengthItem recs s rnd = strL "1. " ++ it.text ++ strL "\n\n") ∧
    (findAndPick recs s (strL "strength") none (rnd 2) = none →
      findAndPick recs s (strL "strength") (some (strL "balance")) (rnd 3) = none →
      strengthItem recs s rnd = encouragementMsg ++ strL "\n\n") ∧
    (sumFields s ≠ 0 →
      generateDetailedAdvice (some recs) (some s) periodLabel rnd
        = replaceSummaryPlaceholders s
            (introSection recs s periodLabel rnd ++
              (strengthHeader ++ strengthItem recs s rnd) ++
              growthSection recs s rnd ++ tipsSection recs s rnd ++
              closingSection recs s rnd)) := by
  refine ⟨fun it hit => ?_, fun h0 it hit => ?_, fun h0 hb => ?_, fun hsum => ?_⟩
  · simp only [strengthItem, hit]
  · simp only [strengthItem, h0, hit]
  · simp only [strengthItem, h0, hb]
  · simp [generateDetailedAdvice, hsum, composeAdvice]

/-- C8 witness: a matching strength record is rendered as the single numbered
item `"1. " + text`. -/
theorem claim_C8_witness :
    strengthItem [⟨strL "strength", strL "s1", strL "great", ALWAYS_MATCH_STR⟩]
        (⟨3, 0, 0, 0, 0, 0, 0, 0⟩ : LogSummaryForAdvice) (fun _ => 0)
      = strL "1. " ++
          (⟨strL "strength", strL "s1", strL "great", ALWAYS_MATCH_STR⟩ : AdviceItem).text ++
          strL "\n\n" :=
  (claim_C8 [⟨strL "strength", strL "s1", strL "great", ALWAYS_MATCH_STR⟩]
    ⟨3, 0, 0, 0, 0, 0, 0, 0⟩ (strL "오늘") (fun _ => 0)).1
    ⟨strL "strength", strL "s1", strL "great", ALWAYS_MATCH_STR⟩ (by decide)

/-! ### C9: every loaded record has four non-empty fields -/

theorem stripEdgeQuotes_no_quote {l : List Char} (h : '"' ∉ l) :
    stripEdgeQuotes l = l := by
  have hh : ¬ l.head? = some '"' := by
    intro he
    cases l with
    | nil => cases he
    | cons c cs =>
      injection he with he
      exact h (by simp [he])
  have hg : ¬ l.getLast? = some '"' := by
    intro he
    obtain ⟨hne, he2⟩ := List.mem_getLast?_eq_getLast (Option.mem_def.mpr he)
    refine h ?_
    rw [he2]
    exact List.getLast_mem hne
  simp only [stripEdgeQuotes, if_neg hh, if_neg hg]

theorem parseCsvRowAux_fields (cs : List Char) : ∀ (inQ : Bool) (cur : List Char),
    '"' ∉ cur → ∀ f ∈ parseCsvRowAux inQ cur cs, trimJs f = f ∧ '"' ∉ f := by
  induction cs with
  | nil =>
    intro inQ cur hcur f hf
    simp only [parseCsvRowAux, List.mem_singleton] at hf
    subst hf
    exact ⟨trimJs_idem _, fun hq => hcur (mem_of_mem_trimJs hq)⟩
  | cons c cs ih =>
    intro inQ cur hcur f hf
    simp only [parseCsvRowAux] at hf
    by_cases hc : c = '"'
    · rw [if_pos hc] at hf
      exact ih _ _ hcur f hf
    · rw [if_neg hc] at hf
      by_cases hcm : c = ',' ∧ inQ = false
      · rw [if_pos hcm] at hf
        rcases List.mem_cons.mp hf with hf | hf
        · subst hf
          exact ⟨trimJs_idem _, fun hq => hcur (mem_of_mem_trimJs hq)⟩
        · exact ih _ _ (by simp) f hf
      · rw [if_neg hcm] at hf
        refine ih _ _ ?_ f hf
        intro hq
        rcases List.mem_append.mp hq with hq | hq
        · exact hcur hq
        · rw [List.mem_singleton] at hq
          exact hc hq.symm

theorem parseCsvRow_field_trimmed {row f : List Char} (h : f ∈ parseCsvRow row) :
    trimJs f = f := by
  unfold parseCsvRow at h
  rw [List.mem_map] at h
  obtain ⟨g, hg, he⟩ := h
  obtain ⟨ht, hq⟩ := parseCsvRowAux_fields row false [] (by simp) g hg
  rw [← he, stripEdgeQuotes_no_quote hq, ht]

/-- C9: every record of a parsed advice dataset has non-empty `type`,
`subtype`, `text` and `criteria` — a row missing any of the four fields (or
with an empty value for one, in particular a missing `criteria`) is dropped
and never appears in the loaded set. -/
theorem claim_C9 (csvText : List Char) (it : AdviceItem)
    (h : it ∈ parseAdviceData csvText) :
    it.type ≠ [] ∧ it.subtype ≠ [] ∧ it.text ≠ [] ∧ it.criteria ≠ [] := by
  unfold parseAdviceData at h
  rw [List.mem_filterMap] at h
  obtain ⟨row, hrow, hp⟩ := h
  unfold parseAdviceRow? at hp
  by_cases hb : trimJs row = []
  · rw [if_pos hb] at hp
    cases hp
  · rw [if_neg hb] at hp
    cases hcsv : parseCsvRow row with
    | nil =>
      simp only [hcsv] at hp
      cases hp
    | cons t r1 =>
      cases r1 with
      | nil =>
        simp only [hcsv] at hp
        cases hp
      | cons st r2 =>
        cases r2 with
        | nil =>
          simp only [hcsv] at hp
          cases hp
        | cons tx r3 =>
          cases r3 with
          | nil =>
            simp only [hcsv] at hp
            cases hp
          | cons cr r4 =>
            simp only [hcsv] at hp
            by_cases hcond : t ≠ [] ∧ st ≠ [] ∧ tx ≠ [] ∧ cr ≠ []
            · rw [if_pos hcond] at hp
              injection hp with he
              obtain ⟨h1, h2, h3, h4⟩ := hcond
              have hcr : cr ∈ parseCsvRow row := by
                rw [hcsv]
                simp
              have htr : trimJs cr = cr := parseCsvRow_field_trimmed hcr
              rw [← he]
              exact ⟨h1, h2, h3, by simpa [htr] using h4⟩
            · rw [if_neg hcond] at hp
              cases hp

/-- C9 witness: a two-line CSV (header plus one complete row) loads one
record with all four fields non-empty. -/
theorem claim_C9_witness :
    (⟨strL "a", strL "b", strL "c", ALWAYS_MATCH_STR⟩ : AdviceItem).type ≠ [] ∧
    (⟨strL "a", strL "b", strL "c", ALWAYS_MATCH_STR⟩ : AdviceItem).subtype ≠ [] ∧
    (⟨strL "a", strL "b", strL "c", ALWAYS_MATCH_STR⟩ : AdviceItem).text ≠ [] ∧
    (⟨strL "a", strL "b", strL "c", ALWAYS_MATCH_STR⟩ : AdviceItem).criteria ≠ [] :=
  claim_C9 (strL "type,subtype,text,criteria\na,b,c,ALWAYS_MATCH")
    ⟨strL "a", strL "b", strL "c", ALWAYS_MATCH_STR⟩ (by decide)

end BuildLucky
